import Mathlib

/-!
Verification of the risk-oracle repository against its specification.

The development shallowly embeds three parts of the code base:

* the Solidity contract `RiskOracle` (src/unnamed/part_002) — state,
  role-gated writes, two-step ownership transfer, and the `can`
  permission table, with EVM revert semantics modelled by `Except`
  (an error leaves the pre-call state untouched);
* the TypeScript classifier (src/packages/backend/src/classifier.ts) —
  `classifyWallet`, `detectImpulsiveTrading`, `checkConsistentActivity`,
  `checkNotBursty`, and the batch runner `classifyAllWallets`;
* the chain synchronizer (src/unnamed/part_004) — `chunkArray` and the
  sequential batch push loop of `pushTiersToChain`.

Addresses are embedded as natural numbers with 0 standing for the zero
address; timestamps are milliseconds as integers (the calendar helpers
reproduce the JavaScript Date arithmetic in UTC).
-/

namespace RiskOracle

/-- Wallet addresses; 0 models the Solidity zero address. -/
abbrev Addr := Nat

/-- Contract storage of RiskOracle (part_002 lines 38-47): owner,
pendingOwner, updater and the wallet-to-tier mapping (default 0). -/
structure OracleState where
  owner : Addr
  pendingOwner : Addr
  updater : Addr
  tiers : Addr → Nat

/-- Custom errors of the contract (part_002 lines 87-96). -/
inductive OError where
  | NotOwner
  | NotUpdater
  | NotPendingOwner
  | ZeroAddress
  | TierOutOfRange (tier : Nat)
  | LengthMismatch
  | BatchTooLarge (length : Nat)
  | NoPendingTransfer
  | TierNotSet
  | NoChange
deriving DecidableEq, Repr

/-- Events of the contract (part_002 lines 73-81). -/
inductive OEvent where
  | TierUpdated (wallet : Addr) (oldTier newTier : Nat)
  | TierDeleted (wallet : Addr) (oldTier : Nat)
  | UpdaterChanged (oldUpdater newUpdater : Addr)
  | OwnershipTransferProposed (currentOwner pendingOwner : Addr)
  | OwnershipTransferOverwritten (displaced replacement : Addr)
  | OwnershipTransferred (oldOwner newOwner : Addr)
  | OwnershipTransferCancelled (cancelledCandidate : Addr)
deriving DecidableEq, Repr

/-- MAX_BATCH constant (part_002 line 65). -/
def MAX_BATCH : Nat := 200

/-- MAX_TIER constant (part_002 line 67). -/
def MAX_TIER : Nat := 4

/-- State right after the constructor ran (part_002 lines 106-114):
deployer becomes owner, updater is the constructor argument (leaving it
0 models the unset case), every tier is 0. -/
def deployState (deployer initialUpdater : Addr) : OracleState :=
  { owner := deployer
    pendingOwner := 0
    updater := initialUpdater
    tiers := fun _ => 0 }

/-- setUpdater (part_002 lines 147-151), onlyOwner. -/
def setUpdater (sender : Addr) (s : OracleState) (newUpdater : Addr) :
    Except OError (OracleState × List OEvent) :=
  if sender ≠ s.owner then .error .NotOwner
  else .ok ({ s with updater := newUpdater },
            [.UpdaterChanged s.updater newUpdater])

/-- proposeOwner (part_002 lines 163-174), onlyOwner: rejects the zero
candidate, emits a displacement event when a proposal was pending, then
records the candidate and emits the proposal event. -/
def proposeOwner (sender : Addr) (s : OracleState) (candidate : Addr) :
    Except OError (OracleState × List OEvent) :=
  if sender ≠ s.owner then .error .NotOwner
  else if candidate = 0 then .error .ZeroAddress
  else
    .ok ({ s with pendingOwner := candidate },
         (if s.pendingOwner ≠ 0 then
            [.OwnershipTransferOverwritten s.pendingOwner candidate]
          else []) ++ [.OwnershipTransferProposed s.owner candidate])

/-- acceptOwnership (part_002 lines 179-185): only the pending owner may
call; makes the caller owner and clears the pending slot. -/
def acceptOwnership (sender : Addr) (s : OracleState) :
    Except OError (OracleState × List OEvent) :=
  if sender ≠ s.pendingOwner then .error .NotPendingOwner
  else
    .ok ({ s with owner := s.pendingOwner, pendingOwner := 0 },
         [.OwnershipTransferred s.owner s.pendingOwner])

/-- cancelOwnershipTransfer (part_002 lines 190-195), onlyOwner: fails
when no proposal is pending. -/
def cancelOwnershipTransfer (sender : Addr) (s : OracleState) :
    Except OError (OracleState × List OEvent) :=
  if sender ≠ s.owner then .error .NotOwner
  else if s.pendingOwner = 0 then .error .NoPendingTransfer
  else
    .ok ({ s with pendingOwner := 0 },
         [.OwnershipTransferCancelled s.pendingOwner])

/-- setTier (part_002 lines 206-215), onlyUpdater: zero-address guard,
tier range guard, and an explicit NoChange error on a no-op write. -/
def setTier (sender : Addr) (s : OracleState) (wallet : Addr) (tier : Nat) :
    Except OError (OracleState × List OEvent) :=
  if sender ≠ s.updater then .error .NotUpdater
  else if wallet = 0 then .error .ZeroAddress
  else if MAX_TIER < tier then .error (.TierOutOfRange tier)
  else if s.tiers wallet = tier then .error .NoChange
  else
    .ok ({ s with tiers := fun a => if a = wallet then tier else s.tiers a },
         [.TierUpdated wallet (s.tiers wallet) tier])

/-- Loop body of setTierBatch (part_002 lines 229-240): per entry a
zero-address guard and a tier range guard, then a write plus event only
when the stored tier differs (silent skip otherwise). -/
def batchLoop (s : OracleState) :
    List (Addr × Nat) → Except OError (OracleState × List OEvent)
  | [] => .ok (s, [])
  | (w, t) :: rest =>
    if w = 0 then .error .ZeroAddress
    else if MAX_TIER < t then .error (.TierOutOfRange t)
    else if s.tiers w ≠ t then
      match batchLoop
          { s with tiers := fun a => if a = w then t else s.tiers a } rest with
      | .ok (s2, evs) => .ok (s2, .TierUpdated w (s.tiers w) t :: evs)
      | .error e => .error e
    else batchLoop s rest

/-- setTierBatch (part_002 lines 222-241), onlyUpdater: length equality
and MAX_BATCH ceiling, then the per-entry loop. -/
def setTierBatch (sender : Addr) (s : OracleState)
    (wallets : List Addr) (newTiers : List Nat) :
    Except OError (OracleState × List OEvent) :=
  if sender ≠ s.updater then .error .NotUpdater
  else if wallets.length ≠ newTiers.length then .error .LengthMismatch
  else if MAX_BATCH < wallets.length then .error (.BatchTooLarge wallets.length)
  else batchLoop s (wallets.zip newTiers)

/-- deleteTier (part_002 lines 248-256), onlyUpdater: zero-address guard
and an explicit TierNotSet error when the tier is already 0. -/
def deleteTier (sender : Addr) (s : OracleState) (wallet : Addr) :
    Except OError (OracleState × List OEvent) :=
  if sender ≠ s.updater then .error .NotUpdater
  else if wallet = 0 then .error .ZeroAddress
  else if s.tiers wallet = 0 then .error .TierNotSet
  else
    .ok ({ s with tiers := fun a => if a = wallet then 0 else s.tiers a },
         [.TierDeleted wallet (s.tiers wallet)])

/-- getTier (part_002 lines 267-269). -/
def getTier (s : OracleState) (wallet : Addr) : Nat :=
  s.tiers wallet

/-- getTierBatch (part_002 lines 276-286). -/
def getTierBatch (s : OracleState) (wallets : List Addr) : List Nat :=
  wallets.map s.tiers

/-- can (part_002 lines 303-314): fixed minimum-tier table with an
unconditional deny for unrecognized action types. -/
def can (s : OracleState) (wallet : Addr) (actionType : Nat) : Bool :=
  let tier := s.tiers wallet
  if actionType = 0 then decide (2 ≤ tier)
  else if actionType = 1 then decide (2 ≤ tier)
  else if actionType = 2 then decide (3 ≤ tier)
  else if actionType = 3 then decide (3 ≤ tier)
  else if actionType = 4 then decide (2 ≤ tier)
  else false

/-- External calls of the contract that can mutate state. -/
inductive Call where
  | setUpdater (newUpdater : Addr)
  | proposeOwner (candidate : Addr)
  | acceptOwnership
  | cancelOwnershipTransfer
  | setTier (wallet : Addr) (tier : Nat)
  | setTierBatch (wallets : List Addr) (newTiers : List Nat)
  | deleteTier (wallet : Addr)

/-- Dispatch a call to the corresponding contract function. -/
def exec (sender : Addr) (c : Call) (s : OracleState) :
    Except OError (OracleState × List OEvent) :=
  match c with
  | .setUpdater u => setUpdater sender s u
  | .proposeOwner cand => proposeOwner sender s cand
  | .acceptOwnership => acceptOwnership sender s
  | .cancelOwnershipTransfer => cancelOwnershipTransfer sender s
  | .setTier w t => setTier sender s w t
  | .setTierBatch ws ts => setTierBatch sender s ws ts
  | .deleteTier w => deleteTier sender s w

/-- EVM transaction semantics: a revert rolls the whole call back, so a
failing call leaves the state unchanged and emits nothing. -/
def runTx (s : OracleState)
    (f : OracleState → Except OError (OracleState × List OEvent)) :
    OracleState × List OEvent :=
  match f s with
  | .ok r => r
  | .error _ => (s, [])

/-- One on-chain transaction: apply a call under revert semantics. -/
def step (sender : Addr) (c : Call) (s : OracleState) : OracleState :=
  (runTx s (exec sender c)).1

/-- States reachable from deployment by any sequence of transactions
from arbitrary senders. -/
inductive Reachable : OracleState → Prop where
  | deploy (deployer initialUpdater : Addr) :
      Reachable (deployState deployer initialUpdater)
  | step (sender : Addr) (c : Call) {s : OracleState} :
      Reachable s → Reachable (step sender c s)

end RiskOracle

namespace Classifier

/-- Transaction record as read by the classifier
(src/packages/backend/src/classifier.ts): timestamp in milliseconds plus
the two behaviour flags. -/
structure Tx where
  timestamp : Int
  isFlip : Bool
  isSuspicious : Bool
deriving DecidableEq, Repr

/-- ONE_DAY in milliseconds (classifier.ts line 13). -/
def ONE_DAY : Int := 24 * 60 * 60 * 1000

/-- ONE_WEEK in milliseconds (classifier.ts line 14). -/
def ONE_WEEK : Int := 7 * ONE_DAY

/-- TWO_WEEKS in milliseconds (classifier.ts line 15). -/
def TWO_WEEKS : Int := 14 * ONE_DAY

/-- THREE_MONTHS in milliseconds (classifier.ts line 16). -/
def THREE_MONTHS : Int := 90 * ONE_DAY

/-- FLIP_THRESHOLD (classifier.ts line 19). -/
def FLIP_THRESHOLD : Nat := 5

/-- MIN_TX_FOR_TIER_2 (classifier.ts line 21). -/
def MIN_TX_FOR_TIER_2 : Nat := 3

/-- MIN_TX_FOR_TIER_3 (classifier.ts line 22). -/
def MIN_TX_FOR_TIER_3 : Nat := 10

/-- MIN_TX_FOR_TIER_4 (classifier.ts line 23). -/
def MIN_TX_FOR_TIER_4 : Nat := 30

/-- Sliding-window scan of detectImpulsiveTrading (classifier.ts lines
96-103): for every index i with i+4 in range, compare the fifth
timestamp of the window with the first; any span strictly under 60
minutes triggers. The source's early return on fewer than 5
transactions is the fall-through case. -/
def impulseScan : List Int → Bool
  | t0 :: t1 :: t2 :: t3 :: t4 :: rest =>
      decide (t4 - t0 < 60 * 60 * 1000) || impulseScan (t1 :: t2 :: t3 :: t4 :: rest)
  | _ => false

/-- detectImpulsiveTrading (classifier.ts lines 93-106) on the
timestamps of the transaction list. -/
def detectImpulsiveTrading (transactions : List Tx) : Bool :=
  impulseScan (transactions.map (·.timestamp))

/-- checkConsistentActivity (classifier.ts lines 113-129): restrict to
transactions at or after now - periodMs, require at least 3 of them and
a first-to-last span of at least half the period. The source compares
against periodMs * 0.5; for the two periods used (14 and 90 days in
milliseconds) that product is an exact even integer, so periodMs / 2 is
the same bound. -/
def checkConsistentActivity (now : Int) (transactions : List Tx)
    (periodMs : Int) : Bool :=
  if transactions.length < 3 then false
  else
    let periodStart := now - periodMs
    let recentTxs := transactions.filter (fun tx => periodStart ≤ tx.timestamp)
    if recentTxs.length < 3 then false
    else
      match recentTxs.head?, recentTxs.getLast? with
      | some first, some last => decide (periodMs / 2 ≤ last.timestamp - first.timestamp)
      | _, _ => false

/-- Floor division by the day length recovers the epoch day of a
millisecond timestamp, matching JavaScript Date arithmetic in UTC. -/
def epochDay (t : Int) : Int := t.fdiv ONE_DAY

/-- Calendar year of an epoch day (proleptic Gregorian, UTC), the value
JavaScript getFullYear returns for a UTC-interpreted Date. Standard
era/year-of-era decomposition with floor division. -/
def civilYear (z : Int) : Int :=
  let z2 := z + 719468
  let era := z2.fdiv 146097
  let doe := z2 - era * 146097
  let yoe := (doe - doe.fdiv 1460 + doe.fdiv 36524 - doe.fdiv 146096).fdiv 365
  let y := yoe + era * 400
  let doy := doe - (365 * yoe + yoe.fdiv 4 - yoe.fdiv 100)
  let mp := (5 * doy + 2).fdiv 153
  let m := mp + (if mp < 10 then 3 else -9)
  if m ≤ 2 then y + 1 else y

/-- Epoch day of a civil date (proleptic Gregorian, UTC), the value
JavaScript produces for a Date built from year, month and day. Inverse
of the era/year-of-era decomposition. -/
def daysFromCivil (y m d : Int) : Int :=
  let y2 := if m ≤ 2 then y - 1 else y
  let era := y2.fdiv 400
  let yoe := y2 - era * 400
  let doy := (153 * (m + (if 2 < m then -3 else 9)) + 2).fdiv 5 + d - 1
  let doe := yoe * 365 + yoe.fdiv 4 - yoe.fdiv 100 + doy
  era * 146097 + doe - 719468

/-- JavaScript getDay: day of week, 0 = Sunday, of an epoch day
(day 0, 1970-01-01, was a Thursday). -/
def jsGetDay (z : Int) : Int := (z + 4).fmod 7

/-- Ceiling division as JavaScript Math.ceil of an integer quotient. -/
def jsCeilDiv (x n : Int) : Int := -((-x).fdiv n)

/-- Week key a transaction timestamp is bucketed under by checkNotBursty
(classifier.ts lines 146-152): the pair behind the "YYYY-Www" string,
with year = getFullYear of the date, dayOfYear = floor of the
millisecond difference to January 1 divided by ONE_DAY plus one, and
weekNum = ceil((dayOfYear + getDay(January 4)) / 7). -/
def weekKey (t : Int) : Int × Int :=
  let y := civilYear (epochDay t)
  let jan4 := daysFromCivil y 1 4
  let jan1 := daysFromCivil y 1 1
  let dayOfYear := (t - jan1 * ONE_DAY).fdiv ONE_DAY + 1
  let weekNum := jsCeilDiv (dayOfYear + jsGetDay jan4) 7
  (y, weekNum)

/-- checkNotBursty (classifier.ts lines 137-156): restrict to
transactions at or after now - periodMs and require their week keys to
form at least 4 distinct values. -/
def checkNotBursty (now : Int) (transactions : List Tx)
    (periodMs : Int) : Bool :=
  let periodStart := now - periodMs
  let recentTxs := transactions.filter (fun tx => periodStart ≤ tx.timestamp)
  decide (4 ≤ ((recentTxs.map (fun tx => weekKey tx.timestamp)).dedup).length)

/-- classifyWallet (classifier.ts lines 29-87) for a wallet present in
the store: its transaction list (ascending by timestamp as delivered by
the query), its firstSeen timestamp, and the evaluation time now.
The suspicious-ratio comparison suspiciousCount / txCount > 0.3 is
embedded as the exact rational comparison 3 * txCount < 10 *
suspiciousCount; for every array length JavaScript can represent
(below 2^32) the double-precision comparison agrees with it. -/
def classifyWallet (now firstSeen : Int) (txs : List Tx) : Nat :=
  if txs.length = 0 then 0
  else
    let txCount := txs.length
    let accountAge := now - firstSeen
    let flipCount := (txs.filter (·.isFlip)).length
    let suspiciousCount := (txs.filter (·.isSuspicious)).length
    if FLIP_THRESHOLD ≤ flipCount then 1
    else if 3 * txCount < 10 * suspiciousCount then 1
    else if detectImpulsiveTrading txs then 1
    else if MIN_TX_FOR_TIER_2 ≤ txCount ∧ ONE_WEEK ≤ accountAge then
      if MIN_TX_FOR_TIER_3 ≤ txCount ∧ TWO_WEEKS ≤ accountAge then
        if checkConsistentActivity now txs TWO_WEEKS then
          if MIN_TX_FOR_TIER_4 ≤ txCount ∧ THREE_MONTHS ≤ accountAge then
            if checkConsistentActivity now txs THREE_MONTHS ∧
               checkNotBursty now txs THREE_MONTHS then 4
            else 3
          else 3
        else 2
      else 2
    else 0

/-- classifyAllWallets (classifier.ts lines 161-182): iterate the stored
wallets in order, classify each, and write back (recording a transition
(wallet, oldTier, newTier)) only when the recomputed tier differs. The
per-wallet classification is passed in as a fallible call, modelling the
awaited database-backed classifyWallet; the source has no error
handling in the loop, so the first failure ends the run: it returns the
transitions performed so far and surfaces the error, and no later
wallet is processed. -/
def classifyAllWallets {α : Type} (cl : Nat → Except α Nat) :
    List (Nat × Nat) → List (Nat × Nat × Nat) × Option α
  | [] => ([], none)
  | (addr, oldTier) :: rest =>
    match cl addr with
    | .error e => ([], some e)
    | .ok newTier =>
      let (writes, res) := classifyAllWallets cl rest
      ((if oldTier ≠ newTier then [(addr, oldTier, newTier)] else []) ++ writes,
       res)

/-- Modelled from the spec: the true ISO-8601 week key (ISO year and ISO
week number) of an epoch day. The spec and the classifier's comments
require bucketing by "distinct ISO calendar weeks"; this definition
follows the ISO rule — weeks run Monday to Sunday and a week belongs to
the year containing its Thursday — and serves as the comparison point
for the formula the code actually implements. -/
def isoWeekKey (z : Int) : Int × Int :=
  let mondayBased := (z + 3).fmod 7
  let thursday := z + (3 - mondayBased)
  let y := civilYear thursday
  (y, (thursday - daysFromCivil y 1 1).fdiv 7 + 1)

end Classifier

namespace Sync

/-- BATCH_SIZE of the chain synchronizer (part_004 line 19): 50, kept
below the contract ceiling of 200. -/
def BATCH_SIZE : Nat := 50

/-- chunkArray (part_004 lines 92-98): split a list into consecutive
chunks of the given size, last chunk possibly shorter. The size-zero
case (on which the JavaScript loop would never terminate) is unreachable
here — the only call site passes BATCH_SIZE. -/
def chunkArray {α : Type} : List α → Nat → List (List α)
  | [], _ => []
  | _ :: _, 0 => []
  | a :: t, n + 1 =>
    (a :: t).take (n + 1) :: chunkArray ((a :: t).drop (n + 1)) (n + 1)
termination_by l _ => l.length
decreasing_by
  simp [List.length_drop]
  omega

/-- Batch loop of pushTiersToChain (part_004 lines 61-83): submit each
batch with setTierBatch and wait for confirmation, in order; a failing
batch stops the run, keeps the state produced by the already confirmed
batches, and surfaces the error; later batches are never submitted. -/
def pushBatches (sender : RiskOracle.Addr) :
    RiskOracle.OracleState → List (List (RiskOracle.Addr × Nat)) →
    RiskOracle.OracleState × Option RiskOracle.OError
  | s, [] => (s, none)
  | s, batch :: rest =>
    match RiskOracle.setTierBatch sender s (batch.map Prod.fst)
        (batch.map Prod.snd) with
    | .ok (s2, _) => pushBatches sender s2 rest
    | .error e => (s, some e)

/-- pushTiersToChain (part_004 lines 21-87), restricted to its on-chain
phase: partition the classifier results into BATCH_SIZE chunks and push
them sequentially. -/
def pushTiersToChain (sender : RiskOracle.Addr)
    (s : RiskOracle.OracleState)
    (results : List (RiskOracle.Addr × Nat)) :
    RiskOracle.OracleState × Option RiskOracle.OError :=
  pushBatches sender s (chunkArray results BATCH_SIZE)

end Sync

namespace Fixtures

/-- A transaction at hour h (UTC) of epoch day d, with no flags. -/
def cleanTx (d h : Nat) : Classifier.Tx :=
  ⟨(d : Int) * Classifier.ONE_DAY + (h : Int) * 3600000, false, false⟩

/-- Thirty clean transactions on 2026-01-11, 2026-01-12, 2026-03-26 and
2026-04-06 (UTC epoch days 20464, 20465, 20538, 20549): ten on each
January day at hours 8..17, five on each spring day at hours 8..12. -/
def burstWalletTxs : List Classifier.Tx :=
  ((List.range 10).map (fun h => cleanTx 20464 (8 + h))) ++
  ((List.range 10).map (fun h => cleanTx 20465 (8 + h))) ++
  ((List.range 5).map (fun h => cleanTx 20538 (8 + h))) ++
  ((List.range 5).map (fun h => cleanTx 20549 (8 + h)))

/-- Evaluation time 2026-04-08 12:00 UTC. -/
def burstNow : Int := 20551 * Classifier.ONE_DAY + 12 * 3600000

/-- Wallet firstSeen 2026-01-01 00:00 UTC. -/
def burstFirstSeen : Int := 20454 * Classifier.ONE_DAY

end Fixtures

section Theorems

open RiskOracle Classifier Sync

/-- C1: can(w, actionType) is true exactly when the stored tier meets
the fixed minimum-tier table (BASIC, TRADE, WITHDRAW need tier at least
2; LEVERAGE and GOVERN need tier at least 3); every action type outside
0..4 is denied for every wallet, and a wallet of tier at most 1 is
denied every action type. -/
theorem can_permission_table (s : OracleState) :
    (∀ w a, can s w a = true ↔
      (((a = 0 ∨ a = 1 ∨ a = 4) ∧ 2 ≤ s.tiers w) ∨
       ((a = 2 ∨ a = 3) ∧ 3 ≤ s.tiers w))) ∧
    (∀ a, 5 ≤ a → ∀ w, can s w a = false) ∧
    (∀ w, s.tiers w ≤ 1 → ∀ a, can s w a = false) := by
  refine ⟨fun w a => ?_, fun a ha w => ?_, fun w hw a => ?_⟩ <;>
  · simp only [can]
    split_ifs <;> simp_all <;> omega

/-- Witness for C1 at a concrete state: a tier-3 wallet may TRADE, a
tier-4 wallet is denied action type 255, and a tier-1 wallet is denied
WITHDRAW. -/
theorem can_permission_table_witness :
    can { owner := 1, pendingOwner := 0, updater := 2,
          tiers := fun a => if a = 10 then 3 else if a = 11 then 4 else
                            if a = 12 then 1 else 0 } 10 1 = true ∧
    can { owner := 1, pendingOwner := 0, updater := 2,
          tiers := fun a => if a = 10 then 3 else if a = 11 then 4 else
                            if a = 12 then 1 else 0 } 11 255 = false ∧
    can { owner := 1, pendingOwner := 0, updater := 2,
          tiers := fun a => if a = 10 then 3 else if a = 11 then 4 else
                            if a = 12 then 1 else 0 } 12 4 = false := by
  refine ⟨((can_permission_table _).1 10 1).mpr (by norm_num),
          (can_permission_table _).2.1 255 (by norm_num) 11,
          (can_permission_table _).2.2 12 (by norm_num) 4⟩

/-- The batch loop succeeds exactly when every entry passes the
zero-address and tier-range checks; the stored tiers play no role. -/
theorem batchLoop_ok_iff (entries : List (Addr × Nat)) :
    ∀ s : OracleState, (∃ r, batchLoop s entries = Except.ok r) ↔
      ∀ p ∈ entries, p.1 ≠ 0 ∧ p.2 ≤ MAX_TIER := by
  induction entries with
  | nil =>
    intro s
    simp [batchLoop]
  | cons p rest ih =>
    rcases p with ⟨w, t⟩
    intro s
    simp only [batchLoop]
    split_ifs with h1 h2 h3
    · refine iff_of_false ?_ ?_
      · rintro ⟨r, hr⟩
        cases hr
      · intro h
        exact (h (w, t) (List.mem_cons_self _ _)).1 h1
    · refine iff_of_false ?_ ?_
      · rintro ⟨r, hr⟩
        cases hr
      · intro h
        exact absurd (h (w, t) (List.mem_cons_self _ _)).2 (not_le.mpr h2)
    · cases hrec : batchLoop
          { s with tiers := fun a => if a = w then t else s.tiers a } rest with
      | ok r2 =>
        obtain ⟨s2, evs⟩ := r2
        refine iff_of_true ⟨(s2, .TierUpdated w (s.tiers w) t :: evs), rfl⟩ ?_
        intro q hq
        rcases List.mem_cons.mp hq with rfl | hq2
        · exact ⟨h1, not_lt.mp h2⟩
        · exact ((ih _).mp ⟨(s2, evs), hrec⟩) q hq2
      | error e =>
        refine iff_of_false ?_ ?_
        · rintro ⟨r, hr⟩
          cases hr
        · intro h
          obtain ⟨r, hr⟩ := (ih _).mpr
            (fun q hq => h q (List.mem_cons_of_mem _ hq))
          rw [hrec] at hr
          cases hr
    · rw [ih s]
      constructor
      · intro h q hq
        rcases List.mem_cons.mp hq with rfl | hq2
        · exact ⟨h1, not_lt.mp h2⟩
        · exact h q hq2
      · intro h q hq
        exact h q (List.mem_cons_of_mem _ hq)

/-- After a successful batch loop, the stored tier of an address is the
left fold over the entries: the tier of its last occurrence, or the
previous value if it does not occur. -/
theorem batchLoop_tiers (entries : List (Addr × Nat)) :
    ∀ s s2 evs, batchLoop s entries = Except.ok (s2, evs) →
      ∀ a, s2.tiers a =
        entries.foldl (fun acc p => if p.1 = a then p.2 else acc) (s.tiers a) := by
  induction entries with
  | nil =>
    intro s s2 evs h a
    cases h
    rfl
  | cons p rest ih =>
    rcases p with ⟨w, t⟩
    intro s s2 evs h a
    simp only [batchLoop] at h
    split_ifs at h with h1 h2 h3
    · cases hrec : batchLoop
          { s with tiers := fun a => if a = w then t else s.tiers a } rest with
      | ok r2 =>
        obtain ⟨s3, evs3⟩ := r2
        rw [hrec] at h
        cases h
        have hx := ih _ _ _ hrec a
        rw [List.foldl_cons, hx]
        congr 1
        by_cases hwa : w = a
        · subst hwa
          simp
        · rw [if_neg hwa]
          show (if a = w then t else s.tiers a) = s.tiers a
          rw [if_neg (fun hh : a = w => hwa hh.symm)]
      | error e =>
        rw [hrec] at h
        cases h
    · have hst : s.tiers w = t := not_ne_iff.mp h3
      have hx := ih _ _ _ h a
      rw [List.foldl_cons, hx]
      congr 1
      by_cases hwa : w = a
      · subst hwa
        rw [if_pos rfl]
        exact hst
      · rw [if_neg hwa]

/-- A successful batch loop never touches the role fields. -/
theorem batchLoop_roles (entries : List (Addr × Nat)) :
    ∀ s s2 evs, batchLoop s entries = Except.ok (s2, evs) →
      s2.owner = s.owner ∧ s2.pendingOwner = s.pendingOwner ∧
      s2.updater = s.updater := by
  induction entries with
  | nil =>
    intro s s2 evs h
    cases h
    exact ⟨rfl, rfl, rfl⟩
  | cons p rest ih =>
    rcases p with ⟨w, t⟩
    intro s s2 evs h
    simp only [batchLoop] at h
    split_ifs at h with h1 h2 h3
    · cases hrec : batchLoop
          { s with tiers := fun a => if a = w then t else s.tiers a } rest with
      | ok r2 =>
        obtain ⟨s3, evs3⟩ := r2
        rw [hrec] at h
        cases h
        have hroles := ih _ _ _ hrec
        exact hroles
      | error e =>
        rw [hrec] at h
        cases h
    · exact ih _ _ _ h

/-- A batch whose every entry is valid and already stored is skipped
entirely: same state back and no events. -/
theorem batchLoop_skip_all (entries : List (Addr × Nat)) :
    ∀ s : OracleState,
      (∀ p ∈ entries, s.tiers p.1 = p.2 ∧ p.1 ≠ 0 ∧ p.2 ≤ MAX_TIER) →
      batchLoop s entries = Except.ok (s, []) := by
  induction entries with
  | nil =>
    intro s _
    rfl
  | cons p rest ih =>
    rcases p with ⟨w, t⟩
    intro s h
    obtain ⟨hst, hw, ht⟩ := h (w, t) (List.mem_cons_self _ _)
    have hrest := ih s (fun q hq => h q (List.mem_cons_of_mem _ hq))
    simp only [batchLoop]
    rw [if_neg hw, if_neg (not_lt.mpr ht), if_neg (by simp [hst])]
    exact hrest

/-- C5: called by the updater, setTierBatch fails exactly when the two
arrays differ in length, or exceed MAX_BATCH (200), or some entry has
the zero wallet address or a tier above 4 — wherever in the batch that
entry sits — and a failing call leaves the tier mapping completely
unchanged (revert semantics); it succeeds exactly when every entry
passes. -/
theorem setTierBatch_atomic_validation (s : OracleState)
    (wallets : List Addr) (newTiers : List Nat) :
    ((∃ e, setTierBatch s.updater s wallets newTiers = .error e) ↔
      (wallets.length ≠ newTiers.length ∨ MAX_BATCH < wallets.length ∨
       ∃ p ∈ wallets.zip newTiers, p.1 = 0 ∨ MAX_TIER < p.2)) ∧
    (∀ e, setTierBatch s.updater s wallets newTiers = .error e →
      runTx s (fun st => setTierBatch s.updater st wallets newTiers) = (s, [])) := by
  constructor
  · simp only [setTierBatch]
    rw [if_neg (fun hc : s.updater ≠ s.updater => hc rfl)]
    split_ifs with hlen hmax
    · exact iff_of_true ⟨.LengthMismatch, rfl⟩ (Or.inl hlen)
    · exact iff_of_true ⟨.BatchTooLarge wallets.length, rfl⟩ (Or.inr (Or.inl hmax))
    · constructor
      · rintro ⟨e, he⟩
        refine Or.inr (Or.inr ?_)
        by_contra hno
        push_neg at hno
        obtain ⟨r, hr⟩ := (batchLoop_ok_iff _ s).mpr hno
        rw [hr] at he
        cases he
      · rintro (hlen2 | hmax2 | ⟨q, hq, hbad⟩)
        · exact absurd hlen2 hlen
        · exact absurd hmax2 hmax
        · cases hloop : batchLoop s (wallets.zip newTiers) with
          | ok r =>
            have hall := (batchLoop_ok_iff _ s).mp ⟨r, hloop⟩ q hq
            rcases hbad with hz | hrange
            · exact absurd hz hall.1
            · exact absurd hall.2 (not_le.mpr hrange)
          | error e => exact ⟨e, rfl⟩
  · intro e he
    simp only [runTx, he]

/-- Witness for C5: a two-entry batch whose second entry is the zero
address (preceded by a valid entry) is rejected with ZeroAddress and the
deployment state survives unchanged. -/
theorem setTierBatch_atomic_validation_witness :
    setTierBatch (deployState 1 7).updater (deployState 1 7) [3, 0] [2, 2] =
      .error .ZeroAddress ∧
    runTx (deployState 1 7)
        (fun st => setTierBatch (deployState 1 7).updater st [3, 0] [2, 2]) =
      (deployState 1 7, []) :=
  ⟨rfl, (setTierBatch_atomic_validation (deployState 1 7) [3, 0] [2, 2]).2
    .ZeroAddress rfl⟩

/-- Folding the batch-write update over entries that all mention the
same wallet with the same tier, starting from that tier, stays there. -/
theorem foldl_keep_tier (w : Addr) (t : Nat) :
    ∀ entries : List (Addr × Nat),
      (∀ q ∈ entries, q.1 = w → q.2 = t) →
      entries.foldl (fun acc p => if p.1 = w then p.2 else acc) t = t := by
  intro entries
  induction entries with
  | nil => intro _; rfl
  | cons q rest ih =>
    intro hq
    rw [List.foldl_cons]
    by_cases hqw : q.1 = w
    · rw [if_pos hqw, hq q (List.mem_cons_self _ _) hqw]
      exact ih (fun r hr => hq r (List.mem_cons_of_mem _ hr))
    · rw [if_neg hqw]
      exact ih (fun r hr => hq r (List.mem_cons_of_mem _ hr))

/-- When a wallet occurs in the entry list and every occurrence carries
the same tier, the batch-write fold lands on that tier. -/
theorem foldl_last_tier (w : Addr) (t : Nat) :
    ∀ entries : List (Addr × Nat), ∀ d : Nat,
      (w, t) ∈ entries →
      (∀ q ∈ entries, q.1 = w → q.2 = t) →
      entries.foldl (fun acc p => if p.1 = w then p.2 else acc) d = t := by
  intro entries
  induction entries with
  | nil =>
    intro d hmem _
    cases hmem
  | cons q rest ih =>
    intro d hmem hcons
    rw [List.foldl_cons]
    rcases List.mem_cons.mp hmem with rfl | hmem2
    · rw [if_pos rfl]
      exact foldl_keep_tier w t rest
        (fun r hr => hcons r (List.mem_cons_of_mem _ hr))
    · exact ih _ hmem2 (fun r hr => hcons r (List.mem_cons_of_mem _ hr))

/-- C6 (counterexample): the batch [(1,1),(1,2)] — the same wallet twice
with different tiers — is valid, yet resubmitting it right after a first
successful submission emits two TierUpdated events instead of none, so
the second call is not all-skips as the claim states. -/
theorem setTierBatch_idempotence_counterexample :
    ((setTierBatch 7 (deployState 1 7) [1, 1] [1, 2]).toOption.bind
        (fun r => (setTierBatch 7 r.1 [1, 1] [1, 2]).toOption)).map Prod.snd =
      some [.TierUpdated 1 2 1, .TierUpdated 1 1 2] ∧
    some [OEvent.TierUpdated 1 2 1, OEvent.TierUpdated 1 1 2] ≠
      some ([] : List OEvent) := by
  exact ⟨rfl, by decide⟩

/-- C6 (amended): a single-item setTier to the already stored tier fails
with NoChange and deleteTier on an already-zero wallet fails with
TierNotSet (both with no state change under revert semantics); a valid
batch in which every occurrence of a wallet carries one tier value — in
particular one without duplicate wallets — is idempotent: resubmitting
it right after a successful submission skips every entry, returns the
same state and emits no events. Duplicate wallets with differing tiers
break the event-freeness, as the counterexample shows. -/
theorem noop_rejection_and_batch_idempotence :
    (∀ s : OracleState, ∀ w, w ≠ 0 → s.tiers w ≤ MAX_TIER →
      setTier s.updater s w (s.tiers w) = .error .NoChange) ∧
    (∀ s : OracleState, ∀ w, w ≠ 0 → s.tiers w = 0 →
      deleteTier s.updater s w = .error .TierNotSet) ∧
    (∀ s : OracleState, ∀ wallets newTiers s1 evs1,
      wallets.length = newTiers.length →
      wallets.length ≤ MAX_BATCH →
      (∀ p ∈ wallets.zip newTiers, ∀ q ∈ wallets.zip newTiers,
        p.1 = q.1 → p.2 = q.2) →
      setTierBatch s.updater s wallets newTiers = .ok (s1, evs1) →
      setTierBatch s1.updater s1 wallets newTiers = .ok (s1, [])) := by
  refine ⟨fun s w hw hle => ?_, fun s w hw h0 => ?_,
          fun s wallets newTiers s1 evs1 hlen hmax hcons hcall => ?_⟩
  · simp only [setTier]
    rw [if_neg (fun hc : s.updater ≠ s.updater => hc rfl), if_neg hw,
        if_neg (not_lt.mpr hle)]
    simp
  · simp only [deleteTier]
    rw [if_neg (fun hc : s.updater ≠ s.updater => hc rfl), if_neg hw,
        if_pos h0]
  · simp only [setTierBatch] at hcall ⊢
    rw [if_neg (fun hc : s.updater ≠ s.updater => hc rfl),
        if_neg (fun hc : wallets.length ≠ newTiers.length => hc hlen),
        if_neg (not_lt.mpr hmax)] at hcall
    have hroles := batchLoop_roles _ _ _ _ hcall
    rw [if_neg (fun hc : s1.updater ≠ s1.updater => hc rfl),
        if_neg (fun hc : wallets.length ≠ newTiers.length => hc hlen),
        if_neg (not_lt.mpr hmax)]
    have hall := (batchLoop_ok_iff _ s).mp ⟨(s1, evs1), hcall⟩
    refine batchLoop_skip_all _ s1 (fun p hp => ?_)
    refine ⟨?_, (hall p hp).1, (hall p hp).2⟩
    have htier := batchLoop_tiers _ _ _ _ hcall p.1
    rw [htier]
    exact foldl_last_tier p.1 p.2 _ (s.tiers p.1)
      (by simpa using hp)
      (fun q hq hq1 => hcons q hq p hp (by rw [hq1]))

/-- Witness for C6 at concrete inputs: on a state with wallet 1 stored
at tier 2 (reached by a batch from deployment), setTier to the stored
tier fails with NoChange, deleteTier of the unset wallet 2 fails with
TierNotSet, and resubmitting the batch [1] to [2] skips and emits
nothing. -/
theorem noop_rejection_and_batch_idempotence_witness :
    setTier 7 { owner := 1, pendingOwner := 0, updater := 7,
                tiers := fun a => if a = 1 then 2 else 0 } 1 2 =
      .error .NoChange ∧
    deleteTier 7 { owner := 1, pendingOwner := 0, updater := 7,
                   tiers := fun a => if a = 1 then 2 else 0 } 2 =
      .error .TierNotSet ∧
    setTierBatch 7 { owner := 1, pendingOwner := 0, updater := 7,
                     tiers := fun a => if a = 1 then 2 else 0 } [1] [2] =
      .ok ({ owner := 1, pendingOwner := 0, updater := 7,
             tiers := fun a => if a = 1 then 2 else 0 }, []) := by
  refine ⟨noop_rejection_and_batch_idempotence.1
            { owner := 1, pendingOwner := 0, updater := 7,
              tiers := fun a => if a = 1 then 2 else 0 } 1
            (by decide) (by decide),
          noop_rejection_and_batch_idempotence.2.1
            { owner := 1, pendingOwner := 0, updater := 7,
              tiers := fun a => if a = 1 then 2 else 0 } 2
            (by decide) (by decide),
          noop_rejection_and_batch_idempotence.2.2
            (deployState 1 7) [1] [2]
            { owner := 1, pendingOwner := 0, updater := 7,
              tiers := fun a => if a = 1 then 2 else 0 }
            [.TierUpdated 1 0 2] rfl (by decide) (by decide) rfl⟩

/-- C7: two-step ownership handover. proposeOwner by the owner with a
non-zero candidate B records B (displacing and announcing any pending
candidate); acceptOwnership by B then atomically makes B the owner and
clears pendingOwner; acceptOwnership by anyone other than the candidate
fails; after the handover the previous owner fails every owner-only
call; cancelOwnershipTransfer with no pending proposal fails; and
proposing the zero address fails. -/
theorem ownership_two_step_handover (s : OracleState) (B : Addr)
    (hB : B ≠ 0) :
    (proposeOwner s.owner s B = .ok ({ s with pendingOwner := B },
        (if s.pendingOwner ≠ 0 then
           [.OwnershipTransferOverwritten s.pendingOwner B]
         else []) ++ [.OwnershipTransferProposed s.owner B])) ∧
    (acceptOwnership B { s with pendingOwner := B } =
      .ok ({ s with owner := B, pendingOwner := 0 },
           [.OwnershipTransferred s.owner B])) ∧
    (∀ C, C ≠ B →
      acceptOwnership C { s with pendingOwner := B } =
        .error .NotPendingOwner) ∧
    (s.owner ≠ B →
      (∀ u, setUpdater s.owner { s with owner := B, pendingOwner := 0 } u =
        .error .NotOwner) ∧
      (∀ c, proposeOwner s.owner { s with owner := B, pendingOwner := 0 } c =
        .error .NotOwner) ∧
      cancelOwnershipTransfer s.owner { s with owner := B, pendingOwner := 0 } =
        .error .NotOwner) ∧
    (s.pendingOwner = 0 →
      cancelOwnershipTransfer s.owner s = .error .NoPendingTransfer) ∧
    (proposeOwner s.owner s 0 = .error .ZeroAddress) := by
  refine ⟨?_, ?_, fun C hC => ?_, fun hAB => ⟨fun u => ?_, fun c => ?_, ?_⟩,
          fun hp => ?_, ?_⟩
  · simp only [proposeOwner]
    rw [if_neg (fun hc : s.owner ≠ s.owner => hc rfl), if_neg hB]
  · simp only [acceptOwnership]
    rw [if_neg (fun hc : B ≠ B => hc rfl)]
  · simp only [acceptOwnership]
    rw [if_pos hC]
  · simp only [setUpdater]
    rw [if_pos hAB]
  · simp only [proposeOwner]
    rw [if_pos hAB]
  · simp only [cancelOwnershipTransfer]
    rw [if_pos hAB]
  · simp only [cancelOwnershipTransfer]
    rw [if_neg (fun hc : s.owner ≠ s.owner => hc rfl), if_pos hp]
  · simp only [proposeOwner]
    rw [if_neg (fun hc : s.owner ≠ s.owner => hc rfl)]
    simp

/-- Witness for C7 from the deployment state with owner 1: candidate 5
accepts and becomes owner, a non-candidate 9 is rejected, the displaced
owner 1 can no longer call setUpdater, and cancelling without a pending
proposal fails. -/
theorem ownership_two_step_handover_witness :
    acceptOwnership 5
        { owner := 1, pendingOwner := 5, updater := 7, tiers := fun _ => 0 } =
      .ok ({ owner := 5, pendingOwner := 0, updater := 7, tiers := fun _ => 0 },
           [.OwnershipTransferred 1 5]) ∧
    acceptOwnership 9
        { owner := 1, pendingOwner := 5, updater := 7, tiers := fun _ => 0 } =
      .error .NotPendingOwner ∧
    setUpdater 1
        { owner := 5, pendingOwner := 0, updater := 7, tiers := fun _ => 0 } 3 =
      .error .NotOwner ∧
    cancelOwnershipTransfer 1 (deployState 1 7) = .error .NoPendingTransfer := by
  have h := ownership_two_step_handover (deployState 1 7) 5 (by decide)
  exact ⟨h.2.1, h.2.2.1 9 (by decide), (h.2.2.2.1 (by decide)).1 3,
         h.2.2.2.2.1 rfl⟩

/-- Folding the batch-write update for a wallet that occurs in no entry
leaves the accumulator untouched. -/
theorem foldl_skip_absent (a : Addr) :
    ∀ entries : List (Addr × Nat), ∀ d : Nat,
      (∀ p ∈ entries, p.1 ≠ a) →
      entries.foldl (fun acc p => if p.1 = a then p.2 else acc) d = d := by
  intro entries
  induction entries with
  | nil => intro d _; rfl
  | cons q rest ih =>
    intro d h
    rw [List.foldl_cons, if_neg (h q (List.mem_cons_self _ _))]
    exact ih d (fun r hr => h r (List.mem_cons_of_mem _ hr))

/-- Every single transaction preserves tier 0 for the zero address:
all write paths reject the zero wallet, and reverts restore the state. -/
theorem step_preserves_zero (sender : Addr) (c : Call) (s : OracleState)
    (h : s.tiers 0 = 0) : (step sender c s).tiers 0 = 0 := by
  cases c with
  | setUpdater u =>
    simp only [step, runTx, exec, setUpdater]
    split_ifs <;> exact h
  | proposeOwner cand =>
    simp only [step, runTx, exec, proposeOwner]
    split_ifs <;> exact h
  | acceptOwnership =>
    simp only [step, runTx, exec, acceptOwnership]
    split_ifs <;> exact h
  | cancelOwnershipTransfer =>
    simp only [step, runTx, exec, cancelOwnershipTransfer]
    split_ifs <;> exact h
  | setTier w t =>
    simp only [step, runTx, exec, setTier]
    split_ifs with h1 h2 h3 h4
    · exact h
    · exact h
    · exact h
    · exact h
    · show (if (0 : Addr) = w then t else s.tiers 0) = 0
      rw [if_neg (fun hh => h2 hh.symm)]
      exact h
  | setTierBatch ws ts =>
    simp only [step, runTx, exec, setTierBatch]
    split_ifs with h1 h2 h3
    · exact h
    · exact h
    · exact h
    · cases hloop : batchLoop s (ws.zip ts) with
      | ok r =>
        obtain ⟨s2, evs⟩ := r
        show s2.tiers 0 = 0
        have hall := (batchLoop_ok_iff _ s).mp ⟨(s2, evs), hloop⟩
        have htier := batchLoop_tiers _ _ _ _ hloop 0
        rw [htier, foldl_skip_absent 0 _ _ (fun p hp => (hall p hp).1)]
        exact h
      | error e => exact h
  | deleteTier w =>
    simp only [step, runTx, exec, deleteTier]
    split_ifs with h1 h2 h3
    · exact h
    · exact h
    · exact h
    · show (if (0 : Addr) = w then 0 else s.tiers 0) = 0
      split_ifs
      · rfl
      · exact h

/-- C10: in every state reachable from deployment the zero address has
tier 0 — every write path rejects it — so getTier of the zero address is
0 and can denies it every action type. -/
theorem zero_address_invariant (s : OracleState) (h : Reachable s) :
    s.tiers 0 = 0 ∧ getTier s 0 = 0 ∧ ∀ a, can s 0 a = false := by
  have htier : s.tiers 0 = 0 := by
    induction h with
    | deploy d u => rfl
    | step sender c hs ih => exact step_preserves_zero sender c _ ih
  refine ⟨htier, htier, fun a => ?_⟩
  simp only [can, htier]
  split_ifs <;> rfl

/-- Witness for C10 at the deployment state. -/
theorem zero_address_invariant_witness :
    (deployState 1 7).tiers 0 = 0 ∧ getTier (deployState 1 7) 0 = 0 ∧
    ∀ a, can (deployState 1 7) 0 a = false :=
  zero_address_invariant (deployState 1 7) (Reachable.deploy 1 7)

/-- A list shorter than 5 has no 5-element consecutive window. -/
theorem no_window_of_short (l : List Int) (hlen : l.length < 5) :
    ¬∃ i a b c d e r, l.drop i = a :: b :: c :: d :: e :: r ∧
      e - a < 60 * 60 * 1000 := by
  rintro ⟨i, a, b, c, d, e, r, hd, -⟩
  have hl := congrArg List.length hd
  rw [List.length_drop] at hl
  simp at hl
  omega

/-- The sliding scan fires exactly when some 5 consecutive entries span
strictly less than 60 minutes from first to fifth. -/
theorem impulseScan_iff (l : List Int) :
    impulseScan l = true ↔
      ∃ i a b c d e r, l.drop i = a :: b :: c :: d :: e :: r ∧
        e - a < 60 * 60 * 1000 := by
  induction l with
  | nil =>
    exact iff_of_false (by simp [impulseScan]) (no_window_of_short [] (by simp))
  | cons t0 tail ih =>
    rcases tail with _ | ⟨t1, tail⟩
    · exact iff_of_false (by simp [impulseScan])
        (no_window_of_short _ (by simp))
    rcases tail with _ | ⟨t2, tail⟩
    · exact iff_of_false (by simp [impulseScan])
        (no_window_of_short _ (by simp))
    rcases tail with _ | ⟨t3, tail⟩
    · exact iff_of_false (by simp [impulseScan])
        (no_window_of_short _ (by simp))
    rcases tail with _ | ⟨t4, rest⟩
    · exact iff_of_false (by simp [impulseScan])
        (no_window_of_short _ (by simp))
    constructor
    · intro h
      simp only [impulseScan, Bool.or_eq_true, decide_eq_true_eq] at h
      rcases h with h | h
      · exact ⟨0, t0, t1, t2, t3, t4, rest, rfl, h⟩
      · obtain ⟨i, a, b, c, d, e, r, hd, hlt⟩ := ih.mp h
        exact ⟨i + 1, a, b, c, d, e, r, by rw [List.drop_succ_cons]; exact hd,
               hlt⟩
    · rintro ⟨i, a, b, c, d, e, r, hd, hlt⟩
      simp only [impulseScan, Bool.or_eq_true, decide_eq_true_eq]
      cases i with
      | zero =>
        rw [List.drop_zero] at hd
        cases hd
        exact Or.inl hlt
      | succ j =>
        rw [List.drop_succ_cons] at hd
        exact Or.inr (ih.mpr ⟨j, a, b, c, d, e, r, hd, hlt⟩)

/-- A 5-transaction consecutive window spanning under 60 minutes makes
detectImpulsiveTrading fire. -/
theorem detectImpulsiveTrading_of_window (txs : List Tx)
    (h : ∃ i x0 x1 x2 x3 x4 r,
      txs.drop i = x0 :: x1 :: x2 :: x3 :: x4 :: r ∧
      x4.timestamp - x0.timestamp < 60 * 60 * 1000) :
    detectImpulsiveTrading txs = true := by
  obtain ⟨i, x0, x1, x2, x3, x4, r, hd, hlt⟩ := h
  rw [detectImpulsiveTrading, impulseScan_iff]
  refine ⟨i, x0.timestamp, x1.timestamp, x2.timestamp, x3.timestamp,
          x4.timestamp, r.map (·.timestamp), ?_, hlt⟩
  rw [← List.map_drop, hd]
  rfl

/-- C2: for a non-empty ascending transaction list, any of the three
exclusion triggers — at least 5 flips, a suspicious ratio strictly above
3/10, or 5 consecutive transactions spanning under 60 minutes — makes
classifyWallet return exactly tier 1, whatever the other tier
prerequisites would say. -/
theorem exclusion_forces_tier_one (now firstSeen : Int) (txs : List Tx)
    (hne : txs ≠ [])
    (hsorted : List.Pairwise (fun a b => a.timestamp ≤ b.timestamp) txs)
    (htrig : 5 ≤ (txs.filter (·.isFlip)).length ∨
             3 * txs.length < 10 * (txs.filter (·.isSuspicious)).length ∨
             ∃ i x0 x1 x2 x3 x4 r,
               txs.drop i = x0 :: x1 :: x2 :: x3 :: x4 :: r ∧
               x4.timestamp - x0.timestamp < 60 * 60 * 1000) :
    classifyWallet now firstSeen txs = 1 := by
  have hlen : ¬(txs.length = 0) := by
    simpa [List.length_eq_zero] using hne
  simp only [classifyWallet, FLIP_THRESHOLD, if_neg hlen]
  by_cases h1 : 5 ≤ (txs.filter (·.isFlip)).length
  · rw [if_pos h1]
  · rw [if_neg h1]
    by_cases h2 : 3 * txs.length < 10 * (txs.filter (·.isSuspicious)).length
    · rw [if_pos h2]
    · rw [if_neg h2]
      have h3 : detectImpulsiveTrading txs = true := by
        rcases htrig with ha | hb | hc
        · exact absurd ha h1
        · exact absurd hb h2
        · exact detectImpulsiveTrading_of_window txs hc
      rw [if_pos h3]

/-- Witness for C2: five flip transactions on consecutive days are
classified tier 1. -/
theorem exclusion_forces_tier_one_witness :
    classifyWallet (10 * ONE_DAY) 0
      [⟨0, true, false⟩, ⟨ONE_DAY, true, false⟩, ⟨2 * ONE_DAY, true, false⟩,
       ⟨3 * ONE_DAY, true, false⟩, ⟨4 * ONE_DAY, true, false⟩] = 1 :=
  exclusion_forces_tier_one (10 * ONE_DAY) 0 _ (by decide) (by decide)
    (Or.inl (by decide))

/-- checkConsistentActivity holds exactly when the trailing window holds
at least 3 transactions and the first-to-last span inside the window is
at least half the period: the source's extra guard on the full list
length is subsumed, since the filtered list is never longer. -/
theorem checkConsistentActivity_iff (now : Int) (txs : List Tx)
    (periodMs : Int) :
    checkConsistentActivity now txs periodMs = true ↔
      (3 ≤ (txs.filter (fun tx => now - periodMs ≤ tx.timestamp)).length ∧
       ∃ f l,
         (txs.filter (fun tx => now - periodMs ≤ tx.timestamp)).head? = some f ∧
         (txs.filter (fun tx => now - periodMs ≤ tx.timestamp)).getLast? = some l ∧
         periodMs / 2 ≤ l.timestamp - f.timestamp) := by
  simp only [checkConsistentActivity]
  by_cases h0 : txs.length < 3
  · rw [if_pos h0]
    refine iff_of_false (by simp) ?_
    rintro ⟨h3, -⟩
    have hfl := List.length_filter_le (fun tx => now - periodMs ≤ tx.timestamp) txs
    omega
  · rw [if_neg h0]
    by_cases h1 : (txs.filter (fun tx => now - periodMs ≤ tx.timestamp)).length < 3
    · rw [if_pos h1]
      refine iff_of_false (by simp) ?_
      rintro ⟨h3, -⟩
      omega
    · rw [if_neg h1]
      cases hfl : txs.filter (fun tx => now - periodMs ≤ tx.timestamp) with
      | nil =>
        rw [hfl] at h1
        simp at h1
      | cons x xs =>
        rw [hfl] at h1
        cases hgl : (x :: xs).getLast? with
        | none => simp at hgl
        | some l2 =>
          simp only [List.head?_cons, decide_eq_true_eq]
          constructor
          · intro hsp
            exact ⟨by simpa using not_lt.mp h1, x, l2, rfl, rfl, hsp⟩
          · rintro ⟨-, f, l3, hf3, hl3, hsp⟩
            obtain rfl : x = f := by
              simpa using hf3
            obtain rfl : l2 = l3 := by
              simpa using hl3
            exact hsp

/-- C3: with no exclusion firing, the returned tier is at least 2 iff
the wallet has at least 3 transactions and is at least a week old; it is
at least 3 iff additionally it has at least 10 transactions, is at least
two weeks old, and the trailing 14-day window holds at least 3
transactions spanning at least half the window; a wallet meeting the
tier-2 but not the tier-3 conditions gets exactly 2, and one failing the
tier-2 conditions gets 0. -/
theorem progressive_tier_unlock (now firstSeen : Int) (txs : List Tx)
    (hne : txs ≠ [])
    (hsorted : List.Pairwise (fun a b => a.timestamp ≤ b.timestamp) txs)
    (hflip : (txs.filter (·.isFlip)).length < 5)
    (hsusp : 10 * (txs.filter (·.isSuspicious)).length ≤ 3 * txs.length)
    (himp : detectImpulsiveTrading txs = false) :
    (2 ≤ classifyWallet now firstSeen txs ↔
      (3 ≤ txs.length ∧ ONE_WEEK ≤ now - firstSeen)) ∧
    (3 ≤ classifyWallet now firstSeen txs ↔
      (3 ≤ txs.length ∧ ONE_WEEK ≤ now - firstSeen ∧
       10 ≤ txs.length ∧ TWO_WEEKS ≤ now - firstSeen ∧
       3 ≤ (txs.filter (fun tx => now - TWO_WEEKS ≤ tx.timestamp)).length ∧
       ∃ f l,
         (txs.filter (fun tx => now - TWO_WEEKS ≤ tx.timestamp)).head? = some f ∧
         (txs.filter (fun tx => now - TWO_WEEKS ≤ tx.timestamp)).getLast? = some l ∧
         TWO_WEEKS / 2 ≤ l.timestamp - f.timestamp)) ∧
    ((3 ≤ txs.length ∧ ONE_WEEK ≤ now - firstSeen) →
      ¬(10 ≤ txs.length ∧ TWO_WEEKS ≤ now - firstSeen ∧
        checkConsistentActivity now txs TWO_WEEKS = true) →
      classifyWallet now firstSeen txs = 2) ∧
    (¬(3 ≤ txs.length ∧ ONE_WEEK ≤ now - firstSeen) →
      classifyWallet now firstSeen txs = 0) := by
  have hlen : ¬(txs.length = 0) := by
    simpa [List.length_eq_zero] using hne
  have h1 : ¬(5 ≤ (txs.filter (·.isFlip)).length) := not_le.mpr hflip
  have h2 : ¬(3 * txs.length < 10 * (txs.filter (·.isSuspicious)).length) :=
    not_lt.mpr hsusp
  have h3 : ¬(detectImpulsiveTrading txs = true) := by
    simp [himp]
  have hform : classifyWallet now firstSeen txs =
      (if 3 ≤ txs.length ∧ ONE_WEEK ≤ now - firstSeen then
        (if 10 ≤ txs.length ∧ TWO_WEEKS ≤ now - firstSeen then
          (if checkConsistentActivity now txs TWO_WEEKS then
            (if 30 ≤ txs.length ∧ THREE_MONTHS ≤ now - firstSeen then
              (if checkConsistentActivity now txs THREE_MONTHS ∧
                  checkNotBursty now txs THREE_MONTHS then 4 else 3)
            else 3)
          else 2)
        else 2)
      else 0) := by
    simp only [classifyWallet, FLIP_THRESHOLD, MIN_TX_FOR_TIER_2,
      MIN_TX_FOR_TIER_3, MIN_TX_FOR_TIER_4, if_neg hlen, if_neg h1,
      if_neg h2, if_neg h3]
  rw [hform]
  refine ⟨?_, ?_, ?_, ?_⟩
  · by_cases hc2 : 3 ≤ txs.length ∧ ONE_WEEK ≤ now - firstSeen
    · rw [if_pos hc2]
      refine iff_of_true ?_ hc2
      split_ifs <;> norm_num
    · rw [if_neg hc2]
      exact iff_of_false (by norm_num) hc2
  · rw [← checkConsistentActivity_iff now txs TWO_WEEKS]
    by_cases hc2 : 3 ≤ txs.length ∧ ONE_WEEK ≤ now - firstSeen
    · rw [if_pos hc2]
      by_cases hc3 : 10 ≤ txs.length ∧ TWO_WEEKS ≤ now - firstSeen
      · rw [if_pos hc3]
        by_cases hP : checkConsistentActivity now txs TWO_WEEKS = true
        · rw [if_pos hP]
          refine iff_of_true ?_ ⟨hc2.1, hc2.2, hc3.1, hc3.2, hP⟩
          split_ifs <;> norm_num
        · rw [if_neg hP]
          exact iff_of_false (by norm_num) (fun h => hP h.2.2.2.2)
      · rw [if_neg hc3]
        exact iff_of_false (by norm_num) (fun h => hc3 ⟨h.2.2.1, h.2.2.2.1⟩)
    · rw [if_neg hc2]
      exact iff_of_false (by norm_num) (fun h => hc2 ⟨h.1, h.2.1⟩)
  · intro hc2 hno
    rw [if_pos hc2]
    by_cases hc3 : 10 ≤ txs.length ∧ TWO_WEEKS ≤ now - firstSeen
    · have hP : ¬(checkConsistentActivity now txs TWO_WEEKS = true) :=
        fun hp => hno ⟨hc3.1, hc3.2, hp⟩
      rw [if_pos hc3, if_neg hP]
    · rw [if_neg hc3]
  · intro hc2
    rw [if_neg hc2]

/-- Witness for C3: the spec's Standard scenario — five clean
transactions over an 8-day-old account — receives exactly tier 2. -/
theorem progressive_tier_unlock_witness :
    classifyWallet (1000 * ONE_DAY) (992 * ONE_DAY)
      [⟨992 * ONE_DAY, false, false⟩, ⟨994 * ONE_DAY, false, false⟩,
       ⟨996 * ONE_DAY, false, false⟩, ⟨998 * ONE_DAY, false, false⟩,
       ⟨999 * ONE_DAY, false, false⟩] = 2 := by
  have h := progressive_tier_unlock (1000 * ONE_DAY) (992 * ONE_DAY)
    [⟨992 * ONE_DAY, false, false⟩, ⟨994 * ONE_DAY, false, false⟩,
     ⟨996 * ONE_DAY, false, false⟩, ⟨998 * ONE_DAY, false, false⟩,
     ⟨999 * ONE_DAY, false, false⟩]
    (by decide) (by decide) (by decide) (by decide) (by decide)
  exact h.2.2.1 (by decide) (by decide)

/-- C4 (code bug): a wallet whose 30 transactions meet every tier-4
requirement under the true ISO-8601 week reading — 30 transactions, 90
days of age, the 50-percent-spread rule over the trailing 90-day window,
and 4 distinct ISO calendar weeks (2026-W02, W03, W13 and W15) inside
that window — is still classified tier 3: the classifier's week formula
buckets days Thursday-to-Wednesday, sees only 3 distinct keys (weeks 2,
13 and 14 of 2026) and fails checkNotBursty, although its own comment
says it collects distinct ISO week keys. -/
theorem tier4_iso_week_divergence :
    classifyWallet Fixtures.burstNow Fixtures.burstFirstSeen
        Fixtures.burstWalletTxs = 3 ∧
    30 ≤ Fixtures.burstWalletTxs.length ∧
    THREE_MONTHS ≤ Fixtures.burstNow - Fixtures.burstFirstSeen ∧
    checkConsistentActivity Fixtures.burstNow Fixtures.burstWalletTxs
        THREE_MONTHS = true ∧
    4 ≤ (((Fixtures.burstWalletTxs.filter
        (fun tx => Fixtures.burstNow - THREE_MONTHS ≤ tx.timestamp)).map
        (fun tx => isoWeekKey (epochDay tx.timestamp))).dedup).length ∧
    checkNotBursty Fixtures.burstNow Fixtures.burstWalletTxs
        THREE_MONTHS = false := by
  exact ⟨by decide, by decide, by decide, by decide, by decide, by decide⟩

/-- Concatenating the chunks of chunkArray recovers the original list
(for a positive chunk size), with the length bound threaded for the
induction. -/
theorem chunkArray_join_aux {α : Type} :
    ∀ (len : Nat) (l : List α) (n : Nat), l.length ≤ len → 0 < n →
      (chunkArray l n).flatten = l := by
  intro len
  induction len with
  | zero =>
    intro l n hl hn
    have hnil : l = [] := List.length_eq_zero.mp (Nat.le_zero.mp hl)
    subst hnil
    simp [chunkArray]
  | succ k ih =>
    intro l n hl hn
    cases l with
    | nil => simp [chunkArray]
    | cons a t =>
      cases n with
      | zero => exact absurd hn (by omega)
      | succ m =>
        rw [chunkArray, List.flatten_cons,
            ih ((a :: t).drop (m + 1)) (m + 1) ?_ hn]
        · exact List.take_append_drop _ _
        · rw [List.length_drop]
          simp only [List.length_cons] at hl ⊢
          omega

/-- chunkArray splits a list into chunks that concatenate back to it. -/
theorem chunkArray_join {α : Type} (l : List α) (n : Nat) (hn : 0 < n) :
    (chunkArray l n).flatten = l :=
  chunkArray_join_aux l.length l n le_rfl hn

/-- Every chunk chunkArray produces has at most the chunk size. -/
theorem chunkArray_length_le {α : Type} :
    ∀ (len : Nat) (l : List α) (n : Nat), l.length ≤ len →
      ∀ b ∈ chunkArray l n, b.length ≤ n := by
  intro len
  induction len with
  | zero =>
    intro l n hl b hb
    have hnil : l = [] := List.length_eq_zero.mp (Nat.le_zero.mp hl)
    subst hnil
    simp [chunkArray] at hb
  | succ k ih =>
    intro l n hl b hb
    cases l with
    | nil => simp [chunkArray] at hb
    | cons a t =>
      cases n with
      | zero => simp [chunkArray] at hb
      | succ m =>
        rw [chunkArray] at hb
        rcases List.mem_cons.mp hb with rfl | hb2
        · rw [List.length_take]
          exact min_le_left _ _
        · refine ih ((a :: t).drop (m + 1)) (m + 1) ?_ b hb2
          rw [List.length_drop]
          simp only [List.length_cons] at hl ⊢
          omega

/-- A run over batches that all succeed continues from the reached state
when more batches are appended. -/
theorem pushBatches_append (sender : RiskOracle.Addr) :
    ∀ (bs1 : List (List (RiskOracle.Addr × Nat))) (s : RiskOracle.OracleState)
      (bs2 : List (List (RiskOracle.Addr × Nat))),
      (pushBatches sender s bs1).2 = none →
      pushBatches sender s (bs1 ++ bs2) =
        pushBatches sender (pushBatches sender s bs1).1 bs2 := by
  intro bs1
  induction bs1 with
  | nil =>
    intro s bs2 _
    rfl
  | cons b rest ih =>
    intro s bs2 hok
    simp only [pushBatches, List.cons_append] at hok ⊢
    cases hcall : RiskOracle.setTierBatch sender s (b.map Prod.fst)
        (b.map Prod.snd) with
    | ok r =>
      obtain ⟨s2, evs⟩ := r
      rw [hcall] at hok
      exact ih s2 bs2 hok
    | error e =>
      rw [hcall] at hok
      cases hok

/-- C8: the synchronizer's batch size is 50, below the on-chain cap of
200; chunkArray partitions the classifier results in order into chunks
of at most 50; pushTiersToChain is exactly the sequential push of those
chunks; and when the first failing batch is reached after a prefix of
confirmed batches, the run stops at the state the confirmed prefix
produced — no rollback, later batches never submitted — and surfaces the
error. -/
theorem chain_sync_halts_on_failure (s : RiskOracle.OracleState)
    (results : List (RiskOracle.Addr × Nat)) :
    (BATCH_SIZE = 50 ∧ BATCH_SIZE < RiskOracle.MAX_BATCH) ∧
    ((chunkArray results BATCH_SIZE).flatten = results ∧
     ∀ b ∈ chunkArray results BATCH_SIZE, b.length ≤ BATCH_SIZE) ∧
    (∀ sender, pushTiersToChain sender s results =
      pushBatches sender s (chunkArray results BATCH_SIZE)) ∧
    (∀ sender bs1 b bs2 sk e,
      pushBatches sender s bs1 = (sk, none) →
      RiskOracle.setTierBatch sender sk (b.map Prod.fst) (b.map Prod.snd) =
        .error e →
      pushBatches sender s (bs1 ++ b :: bs2) = (sk, some e)) := by
  refine ⟨⟨rfl, by decide⟩,
          ⟨chunkArray_join results BATCH_SIZE (by decide),
           chunkArray_length_le results.length results BATCH_SIZE le_rfl⟩,
          fun sender => rfl,
          fun sender bs1 b bs2 sk e hpre hfail => ?_⟩
  have happ := pushBatches_append sender bs1 s (b :: bs2) (by rw [hpre])
  rw [happ, hpre]
  simp only [pushBatches, hfail]

/-- Witness for C8: from deployment with updater 7, after an empty
confirmed prefix, a batch containing the zero address fails and the run
returns the untouched state with the surfaced ZeroAddress error. -/
theorem chain_sync_halts_on_failure_witness :
    pushBatches 7 (RiskOracle.deployState 1 7) ([] ++ [(0, 1)] :: []) =
      (RiskOracle.deployState 1 7, some .ZeroAddress) :=
  (chain_sync_halts_on_failure (RiskOracle.deployState 1 7) []).2.2.2
    7 [] [(0, 1)] [] (RiskOracle.deployState 1 7) .ZeroAddress rfl rfl

/-- C9 (counterexample): with wallet 1 failing classification and wallet
2 still waiting (stored tier 0, recomputed tier 2), the batch run
returns no writes at all and surfaces the error — wallet 2 is never
processed, contradicting the claimed log-and-continue behaviour. -/
theorem reclassifier_abort_counterexample :
    classifyAllWallets
        (fun a => if a = 1 then (.error 0 : Except Nat Nat) else .ok 2)
        [(1, 0), (2, 0)] = (([] : List (Nat × Nat × Nat)), some 0) ∧
    (fun a => if a = 1 then (.error 0 : Except Nat Nat) else .ok 2) 2 =
      .ok 2 ∧
    (2, 0, 2) ∉ (classifyAllWallets
        (fun a => if a = 1 then (.error 0 : Except Nat Nat) else .ok 2)
        [(1, 0), (2, 0)]).1 :=
  ⟨rfl, rfl, by decide⟩

/-- C9 (amended): the batch reclassifier has no per-wallet error
handling, so the first failing classification ends the run — the
transitions of the already processed prefix stand, the error is
surfaced, and no later wallet is processed; and a wallet whose
recomputed tier equals its stored tier is not written back and produces
no transition record. -/
theorem reclassifier_abort_and_noop_skip :
    (∀ {α : Type} (cl : Nat → Except α Nat)
        (pre : List (Nat × Nat)) (a old : Nat) (post : List (Nat × Nat)) (e : α),
      (classifyAllWallets cl pre).2 = none →
      cl a = .error e →
      classifyAllWallets cl (pre ++ (a, old) :: post) =
        ((classifyAllWallets cl pre).1, some e)) ∧
    (∀ {α : Type} (cl : Nat → Except α Nat) (a t : Nat)
        (rest : List (Nat × Nat)),
      cl a = .ok t →
      classifyAllWallets cl ((a, t) :: rest) = classifyAllWallets cl rest) := by
  constructor
  · intro α cl pre
    induction pre with
    | nil =>
      intro a old post e _ hfail
      simp only [List.nil_append, classifyAllWallets, hfail]
    | cons q pre2 ih =>
      intro a old post e hok hfail
      obtain ⟨b, oldb⟩ := q
      simp only [classifyAllWallets, List.cons_append] at hok ⊢
      cases hcl : cl b with
      | error e2 =>
        rw [hcl] at hok
        cases hok
      | ok newT =>
        rw [hcl] at hok
        have hok2 : (classifyAllWallets cl pre2).2 = none := by
          simpa using hok
        have hrec := ih a old post e hok2 hfail
        simp only [List.append_eq]
        rw [hrec]
  · intro α cl a t rest hcl
    simp only [classifyAllWallets, hcl]
    cases classifyAllWallets cl rest with
    | mk ws res => simp

/-- Witness for C9: the failing-first-wallet run aborts from the empty
prefix, and a wallet whose recomputed tier 2 equals its stored tier 2 is
skipped without a transition record. -/
theorem reclassifier_abort_and_noop_skip_witness :
    classifyAllWallets
        (fun a => if a = 1 then (.error 0 : Except Nat Nat) else .ok 2)
        ([] ++ (1, 0) :: [(2, 0)]) = (([] : List (Nat × Nat × Nat)), some 0) ∧
    classifyAllWallets (fun _ => (.ok 2 : Except Nat Nat)) [(3, 2)] =
      classifyAllWallets (fun _ => (.ok 2 : Except Nat Nat)) [] :=
  ⟨reclassifier_abort_and_noop_skip.1
      (fun a => if a = 1 then (.error 0 : Except Nat Nat) else .ok 2)
      [] 1 0 [(2, 0)] 0 rfl rfl,
   reclassifier_abort_and_noop_skip.2
      (fun _ => (.ok 2 : Except Nat Nat)) 3 2 [] rfl⟩

end Theorems
